import Mathlib

/-!
Verification development for the ferris_draw turtle-graphics core
(src/lib.rs and src/ui.rs).

Modelling conventions:
* `f32` values are embedded as exact rationals (`ℚ`).  Every concrete input
  used in a theorem below is a small dyadic rational, on which the `f32`
  operations performed by the code (additions, multiplications by powers of
  two, comparisons) are exact, so the rational computation coincides with the
  float computation of the program.
* The transcendental intrinsics `f32::cos`, `f32::sin`, `f32::atan2` are
  external to the repository; they are passed in as an oracle (`TrigOracle`),
  a function from the drawer's stored angle to the rational value the float
  library returns.  No theorem below depends on a particular oracle.
* `bevy::cosmic_text::Angle` stores radians; `Angle::from_degrees` and
  `Angle::to_degrees` are exact mutual inverses (multiplication by pi/180 and
  its reciprocal), so the model keeps the degree value itself in the `ang`
  field.  The degree addition `rotate` performs on its own line, however, is
  an `f32` operation of this repository and rounds; it is modelled explicitly
  with the binary32 round-to-nearest-even function `roundF32`.
* `DashMap<String, Drawer>` is modelled at value level as an insertion-ordered
  association list with unique keys.
* The mpsc render channel, the toast collaborator and the output ring buffer
  are modelled as grow-only lists inside the state (`sentRequests`, `output`);
  the toast sink is out of scope and dropped.
-/

set_option autoImplicit false

attribute [local semireducible] Rat.mul Rat.add Rat.sub Rat.inv

namespace FerrisDraw

/-- Model of `bevy::math::Vec2` (f32 pair) over exact rationals. -/
structure Vec2 where
  x : ℚ
  y : ℚ
deriving DecidableEq

/-- Model of `bevy::math::Vec3` (f32 triple); `z` is always `0.` in this code. -/
structure Vec3 where
  x : ℚ
  y : ℚ
  z : ℚ
deriving DecidableEq

/-- Model of `bevy::color::Color`.  Only the two variants this code constructs
are modelled: `Color::WHITE` is the sRGB white constant and
`Color::linear_rgba` builds the linear variant.  `PartialEq` on the Rust enum
distinguishes the variants, which the inductive reproduces. -/
inductive Color where
  | srgba (red green blue alpha : ℚ)
  | linearRgba (red green blue alpha : ℚ)
deriving DecidableEq

/-- Model of the constant `Color::WHITE`. -/
def Color.white : Color := Color.srgba 1 1 1 1

/-- Model of `LineStrip` (lib.rs): a list of points paired with colors. -/
structure LineStrip where
  points : List (Vec3 × Color)
deriving DecidableEq

/-- Model of `FilledPolygonPoints` (lib.rs). -/
structure FilledPolygonPoints where
  points : List Vec3
  color : Color
deriving DecidableEq

/-- Model of `Drawings` (lib.rs): lines and polygons drawn by one drawer. -/
structure Drawings where
  lines : List LineStrip
  polygons : List FilledPolygonPoints
deriving DecidableEq

/-- Model of `impl Default for Drawings` (lib.rs lines 528-537): one strip
holding a single white point at the origin, no polygons. -/
def Drawings.default : Drawings :=
  { lines := [LineStrip.mk [(Vec3.mk 0 0 0, Color.white)]]
    polygons := [] }

/-- Model of `Drawer` (lib.rs lines 500-517).  The `ang` field holds the
degree value of the stored `Angle` (see the header note on exactness of the
degree/radian conversion pair). -/
structure Drawer where
  enabled : Bool
  pos : Vec2
  ang : ℚ
  drawings : Drawings
  color : Color
deriving DecidableEq

/-- Model of `impl Default for Drawer` (lib.rs lines 546-558). -/
def Drawer.default : Drawer :=
  { enabled := true
    pos := Vec2.mk 0 0
    ang := 90
    drawings := Drawings.default
    color := Color.white }

/-- The drawer registry `Drawers` (`DashMap<String, Drawer>`), modelled as an
insertion-ordered association list with unique keys. -/
abbrev Registry := List (String × Drawer)

/-- Lookup of a drawer by id (`DashMap::get` / `get_mut`). -/
def lookupDrawer : Registry → String → Option Drawer
  | [], _ => none
  | p :: rest, id => if p.1 = id then some p.2 else lookupDrawer rest id

/-- Key membership (`DashMap::contains_key`). -/
def containsDrawer (reg : Registry) (id : String) : Bool :=
  (lookupDrawer reg id).isSome

/-- Replace the value stored under `id` (mutation through a `get_mut` guard).
On a registry with unique keys this rewrites exactly the one entry. -/
def setDrawer : Registry → String → Drawer → Registry
  | [], _, _ => []
  | p :: rest, id, v =>
      if p.1 = id then (p.1, v) :: setDrawer rest id v else p :: setDrawer rest id v

/-- Delete the entry stored under `id` (`DashMap::remove`); on unique-key
registries this removes exactly the one entry. -/
def removeDrawer : Registry → String → Registry
  | [], _ => []
  | p :: rest, id =>
      if p.1 = id then removeDrawer rest id else p :: removeDrawer rest id

/-- Per-value map over the registry (used by `wipe`'s `iter_mut` loop). -/
def mapDrawers (f : Drawer → Drawer) (reg : Registry) : Registry :=
  reg.map (fun p => (p.1, f p.2))

/-- Model of `f32::abs`. -/
def fabs (q : ℚ) : ℚ := if q < 0 then -q else q

/-- The `f32` literal `0.000001` used by `floating_point_calculation_error`:
the nearest `f32` to 1e-6 is `8796093 * 2 ^ (-43) = 8796093 / 8796093022208`,
slightly below the exact decimal 1e-6. -/
def snapThreshold : ℚ := 8796093 / 8796093022208

/-- Model of `floating_point_calculation_error` (lib.rs lines 2037-2045):
values of magnitude below the `0.000001` literal are snapped to exactly 0. -/
def floating_point_calculation_error (q : ℚ) : ℚ :=
  if fabs q < snapThreshold then 0 else q

/-- The x-delta computed by `forward` (lib.rs lines 843-844):
`amount * floating_point_calculation_error(angle_rad.cos())`, where the second
factor is the float-library cosine of the heading.  The same expression with
the sine gives the y-delta (line 846-847). -/
def forwardDelta (amount trigComponent : ℚ) : ℚ :=
  amount * floating_point_calculation_error trigComponent

/-- Powers of two over the naturals, by plain recursion so the kernel can
evaluate them. -/
def pow2Nat : ℕ → ℚ
  | 0 => 1
  | n + 1 => 2 * pow2Nat n

/-- Integer powers of two. -/
def pow2 : ℤ → ℚ
  | Int.ofNat n => pow2Nat n
  | Int.negSucc n => 1 / pow2Nat (n + 1)

/-- Binary exponent search: scales a positive rational into `[1, 2)` and
returns the accumulated exponent, so that `pow2 e ≤ q < pow2 (e + 1)` for the
input.  The fuel bounds the search to exponents of magnitude 300, far beyond
the whole `f32` range; every value any theorem evaluates is inside it. -/
def findExp : ℕ → ℚ → ℤ → ℤ
  | 0, _, e => e
  | fuel + 1, q, e =>
      if 2 ≤ q then findExp fuel (q / 2) (e + 1)
      else if q < 1 then findExp fuel (q * 2) (e - 1)
      else e

/-- IEEE-754 binary32 rounding of an exact rational result: round to the
nearest multiple of the unit in the last place (24-bit significand), ties to
the even multiple.  This is the rounding every `f32` arithmetic operation
applies to its exact result in the normal range; overflow and subnormals do
not occur at the magnitudes used here. -/
def roundF32 (q : ℚ) : ℚ :=
  if q = 0 then 0
  else
    let a := fabs q
    let e := findExp 300 a 0
    let ulp := pow2 (e - 23)
    let n : ℤ := ⌊a / ulp⌋
    let r := a / ulp - (n : ℚ)
    let m : ℤ :=
      if r < 1/2 then n
      else if (1 : ℚ)/2 < r then n + 1
      else if n % 2 = 0 then n else n + 1
    let res := (m : ℚ) * ulp
    if q < 0 then -res else res

/-- The heading update of `rotate` (lib.rs line 664):
`Angle::from_degrees(drawer.ang.to_degrees() + degrees)`.  The degree/radian
conversion pair is external and modelled as exact (header note), but the
addition of the two degree values is this repository's own `f32` operation,
so its round-to-nearest-even is modelled explicitly. -/
def rotateAng (ang degrees : ℚ) : ℚ :=
  roundF32 (ang + degrees)

/-- Model of the `DemoStep` enum (lib.rs lines 118-136).  `NonNaN<f32>`
payloads are rationals: `NonNaN::new(v).unwrap_or_default()` is the identity
on every non-NaN float and rationals have no NaN, so the coercion disappears.
The `PointTo` payload uses raw `f32` in the source; same embedding. -/
inductive DemoStep where
  | new (id : String)
  | center (id : String)
  | forward (id : String) (amount : ℚ)
  | rotate (id : String) (amount : ℚ)
  | setAngle (id : String) (angle : ℚ)
  | color (id : String) (r g b a : ℚ)
  | wipe
  | remove (id : String)
  | disable (id : String)
  | enable (id : String)
  | fill (id : String)
  | rectangle (id : String) (desiredX desiredY : ℚ)
  | print (s : String)
  | loop (count : Nat) (steps : List DemoStep)
  | pointTo (id : String) (dx dy : ℚ)

/-- String pieces used by the `Display` rendering. -/
def quoteClose : String := "\")"

/-- Closing piece for calls whose last argument is numeric. -/
def parenClose : String := ")"

/-- Separator between rendered arguments. -/
def argSep : String := ", "

/-- Newline used to join a loop body's steps. -/
def newlineStr : String := "\n"

mutual

/-- Model of `impl Display for DemoStep` (lib.rs lines 146-201).  `num` is the
`f32` `Display` formatter for the numeric payloads, passed as an oracle; the
string structure is copied from the `format!` literals.  Note the source
renders the `Enable` variant with the text `disable(..)` (lines 173-175) and
the `SetAngle` variant with the name `set_angle` (lines 193-195). -/
def DemoStep.render (num : ℚ → String) : DemoStep → String
  | DemoStep.new id => "new(\"" ++ id ++ quoteClose
  | DemoStep.center id => "center(\"" ++ id ++ quoteClose
  | DemoStep.forward id amount => "forward(\"" ++ id ++ "\", " ++ num amount ++ parenClose
  | DemoStep.rotate id amount => "rotate(\"" ++ id ++ "\", " ++ num amount ++ parenClose
  | DemoStep.color id r g b a =>
      "color(\"" ++ id ++ "\", " ++ num r ++ argSep ++ num g ++ argSep ++ num b
        ++ argSep ++ num a ++ parenClose
  | DemoStep.wipe => "wipe()"
  | DemoStep.remove id => "remove(\"" ++ id ++ quoteClose
  | DemoStep.disable id => "disable(\"" ++ id ++ quoteClose
  | DemoStep.enable id => "disable(\"" ++ id ++ quoteClose
  | DemoStep.fill id => "fill(\"" ++ id ++ quoteClose
  | DemoStep.rectangle id dx dy =>
      "rectangle(\"" ++ id ++ "\", " ++ num dx ++ argSep ++ num dy ++ parenClose
  | DemoStep.print s => "print(\"" ++ s ++ quoteClose
  | DemoStep.loop count steps =>
      "for i=1," ++ toString count ++ " do " ++
        String.intercalate newlineStr (DemoStep.renderList num steps) ++ " end"
  | DemoStep.setAngle id angle =>
      "set_angle(\"" ++ id ++ "\", " ++ num angle ++ parenClose
  | DemoStep.pointTo id dx dy =>
      "point_to(\"" ++ id ++ "\", " ++ num dx ++ argSep ++ num dy ++ parenClose

/-- Renders each step of a loop body (the `vec.iter().map(to_string)` part of
the `Loop` arm). -/
def DemoStep.renderList (num : ℚ → String) : List DemoStep → List String
  | [] => []
  | s :: rest => DemoStep.render num s :: DemoStep.renderList num rest

end

/-- The global names the command dispatcher registers the callables under
(lib.rs lines 1207-1225, the `lua_vm.globals().set` block), in source order. -/
def registeredCommandNames : List String :=
  ["new", "remove", "drawers", "rotate", "forward", "center", "color",
   "print", "wipe", "exists", "enable", "disable", "fill", "notification",
   "position", "rectangle", "set_drawer_angle", "point_to"]

/-- Model of `Line` (lib.rs lines 1954-1960): two points with a segment
between them. -/
structure Line where
  min : Vec3
  max : Vec3
deriving DecidableEq

/-- Construction helper `Line::new`. -/
def Line.new (min max : Vec3) : Line := Line.mk min max

/-- Model of `Line::is_point_on_segment` (lib.rs lines 2027-2034): bounding
box membership. -/
def Line.is_point_on_segment (self : Line) (point : Vec3) : Bool :=
  (Min.min self.min.x self.max.x ≤ point.x && point.x ≤ Max.max self.min.x self.max.x) &&
  (Min.min self.min.y self.max.y ≤ point.y && point.y ≤ Max.max self.min.y self.max.y)

/-- Model of `Line::intersects` (lib.rs lines 1975-2025), clause for clause:
identical lines never intersect; slopes are forced to 0 for vertical
segments; segments sharing an endpoint short-circuit to that endpoint;
equal slopes never intersect; otherwise the crossing point of the two line
equations is accepted when it lies in both bounding boxes.  (Rational
division by zero yields 0, but every division below has a nonzero
denominator or is overwritten by the vertical-segment guard, mirroring the
`f32` code whose infinite slope is likewise overwritten.) -/
def Line.intersects (self other_line : Line) : Option Vec3 :=
  if self = other_line then none
  else
    let m1 : ℚ :=
      if self.max.x - self.min.x = 0 then 0
      else (self.max.y - self.min.y) / (self.max.x - self.min.x)
    let m2 : ℚ :=
      if other_line.max.x - other_line.min.x = 0 then 0
      else (other_line.max.y - other_line.min.y) / (other_line.max.x - other_line.min.x)
    if other_line.max = self.min ∨ self.min = other_line.min then
      some (Vec3.mk self.min.x self.min.y 0)
    else if self.max = other_line.min ∨ self.max = other_line.max then
      some (Vec3.mk self.max.x self.max.y 0)
    else if m1 = m2 then none
    else
      let b1 := floating_point_calculation_error (self.min.y - m1 * self.min.x)
      let b2 := floating_point_calculation_error (other_line.min.y - m2 * other_line.min.x)
      let intersection_x := (b2 - b1) / (m1 - m2)
      let intersection_y := m1 * intersection_x + b1
      let intersection_point := Vec3.mk intersection_x intersection_y 0
      if !(self.is_point_on_segment intersection_point) ||
         !(other_line.is_point_on_segment intersection_point) then none
      else some (Vec3.mk intersection_x intersection_y 0)

/-- Model of `geo::Coord` (f64 pair; exact on the dyadic inputs used). -/
structure Coord where
  x : ℚ
  y : ℚ
deriving DecidableEq

/-- Orientation cross product of `b` around `o` towards `a`:
`(a - o) x (b - o)`. -/
def cross (o a b : Coord) : ℚ :=
  (a.x - o.x) * (b.y - o.y) - (a.y - o.y) * (b.x - o.x)

/-- Lexicographic comparison on coordinates (x first), used to sort points
before the hull sweep. -/
def coordLE (a b : Coord) : Bool :=
  a.x < b.x || (a.x = b.x && a.y ≤ b.y)

/-- Insertion of one coordinate into a lexicographically sorted list. -/
def insertCoord (a : Coord) : List Coord → List Coord
  | [] => [a]
  | b :: rest => if coordLE a b then a :: b :: rest else b :: insertCoord a rest

/-- Lexicographic insertion sort. -/
def sortCoords : List Coord → List Coord
  | [] => []
  | a :: rest => insertCoord a (sortCoords rest)

/-- Half-hull sweep step of Andrew's monotone chain: pop while the new point
does not make a strict left turn.  The accumulator is kept reversed (head is
the most recent hull point). -/
def hullStep (p : Coord) : List Coord → List Coord
  | [] => [p]
  | b :: rest =>
      match rest with
      | [] => [p, b]
      | a :: _ => if cross a b p ≤ 0 then hullStep p rest else p :: b :: rest

/-- One half (lower or upper) of the convex hull of an ordered point list. -/
def halfHull (pts : List Coord) : List Coord :=
  (pts.foldl (fun h p => hullStep p h) []).reverse

/-- Convex hull of a point set, counterclockwise vertex order (model of the
external `geo::ConvexHull` collaborator, exact on the rational inputs used).
Duplicates are removed by the sort-and-dedup preprocessing. -/
def convexHullPts (pts : List Coord) : List Coord :=
  let s := (sortCoords pts).dedup
  if s.length ≤ 2 then s
  else (halfHull s).dropLast ++ (halfHull s.reverse).dropLast

/-- The directed edge list of a polygon given by its vertex cycle: each
vertex paired with its successor, the last one closing back to the first. -/
def polygonEdges : List Coord → List (Coord × Coord)
  | [] => []
  | v :: rest => (v :: rest).zip (rest ++ [v])

/-- Whether `p` lies strictly inside the counterclockwise convex polygon
`poly`: strictly to the left of every edge (model of the external
`geo::Contains` for polygons, which excludes the boundary). -/
def strictInsideConvex (poly : List Coord) (p : Coord) : Bool :=
  decide (3 ≤ poly.length) &&
    (polygonEdges poly).all (fun e => 0 < cross e.1 e.2 p)

/-- Containment of `p` in the interior of the convex hull of `pts` (the
`polygon.convex_hull().contains(..)` composite in `fill`). -/
def hullContains (pts : List Coord) (p : Coord) : Bool :=
  strictInsideConvex (convexHullPts pts) p

/-- Inner loop of the `fill` scan (lib.rs lines 1035-1059): walk the checked
lines with their enumeration index `j`, skip the immediate predecessor
(`idx - 1 = j` over the integers) and everything while at most 2 lines are
checked, and stop at the first checked line the current line intersects.
`checkedLen` is `checked_lines.len()`, constant during the loop because the
push happens after it. -/
def firstHit (line : Line) (idx : Nat) (checkedLen : Nat) :
    Nat → List Line → Option (Line × Vec3)
  | _, [] => none
  | j, c :: rest =>
      if (idx : Int) - 1 ≠ (j : Int) ∧ 2 < checkedLen then
        match line.intersects c with
        | some p => some (c, p)
        | none => firstHit line idx checkedLen (j + 1) rest
      else firstHit line idx checkedLen (j + 1) rest

/-- Index of the first checked line equal to the hit one
(`checked_lines.iter().position(|line| line == checked_line)`). -/
def positionOfLine (checked : List Line) (t : Line) : Nat :=
  checked.findIdx (fun l => l = t)

/-- Body of one outer iteration of the `fill` scan for the line at `idx`:
if some checked line is hit, build the candidate polygon from the
intersection point followed by the `max` endpoints of the checked lines
strictly between the hit and `idx` (`&checked_lines[k+1..idx]`), and emit it
when the hull strictly contains the probe point.  At most one polygon is
emitted per outer iteration (the `break`). -/
def processLine (probe : Coord) (line : Line) (idx : Nat) (checked : List Line) :
    List (List Coord) :=
  match firstHit line idx checked.length 0 checked with
  | none => []
  | some (checkedLine, ipos) =>
      let k := positionOfLine checked checkedLine
      let polygonPoints : List Coord :=
        Coord.mk ipos.x ipos.y ::
          ((checked.drop (k + 1)).take (idx - (k + 1))).map
            (fun polyLine => Coord.mk polyLine.max.x polyLine.max.y)
      if hullContains polygonPoints probe then [polygonPoints] else []

/-- Outer loop of the `fill` scan: after each line is processed it is pushed
onto the checked list; the requests emitted by each iteration are collected
in order. -/
def fillScanAux (probe : Coord) : Nat → List Line → List Line → List (List Coord)
  | _, _, [] => []
  | idx, checked, line :: rest =>
      processLine probe line idx checked ++
        fillScanAux probe (idx + 1) (checked ++ [line]) rest

/-- The `windows(2)` pass (lib.rs lines 1027-1031) turning the flattened
point sequence into consecutive `Line`s. -/
def linesOfPoints (pts : List Vec3) : List Line :=
  (pts.zip pts.tail).map (fun pr => Line.new pr.1 pr.2)

/-- The polygon point lists sent down the render channel by one `fill` call
whose requesting drawer sits at `probe`, given the flattened cross-drawer
point sequence. -/
def fillRequests (probe : Coord) (pts : List Vec3) : List (List Coord) :=
  fillScanAux probe 0 [] (linesOfPoints pts)

/-- The cross-drawer point flattening at the start of `fill` (lib.rs lines
1014-1023): every point of every strip of every drawer, in registry
iteration order. -/
def flattenPoints (reg : Registry) : List Vec3 :=
  reg.flatMap (fun p =>
    p.2.drawings.lines.flatMap (fun strip => strip.points.map (fun pt => pt.1)))

/-- Model of `DemoBufferState` (lib.rs lines 48-56). -/
inductive DemoBufferState where
  | playback
  | record
  | none
deriving DecidableEq

/-- Errors a command can return to the script dispatcher.  The two
`RuntimeError` shapes of the command closures, plus the panic of `forward`'s
`lines.last_mut().unwrap()` on an empty strip list. -/
inductive Err where
  | drawerNotFound (id : String)
  | drawerAlreadyExists (id : String)
  | panicEmptyLines
deriving DecidableEq

/-- One request sent over the `DrawRequester` channel:
`(Vec<Vec3>, Color, String)`. -/
structure FillReq where
  points : List Vec3
  color : Color
  owner : String
deriving DecidableEq

/-- The state a command invocation reads and writes: the drawer registry, the
demo buffer's step list, the output-line collaborator and the render-request
channel (both modelled as grow-only lists). -/
structure LuaState where
  drawers : Registry
  demoSteps : List DemoStep
  output : List String
  sentRequests : List FillReq

/-- Oracle for the float-library transcendentals: `cosDeg a` / `sinDeg a`
are the values of `angle_rad.cos()` / `angle_rad.sin()` where `angle_rad` is
the stored radian form of the degree angle `a`, and `atanDeg dy dx` is
`dy.atan2(dx).to_degrees()`.  Theorems quantify over the oracle. -/
structure TrigOracle where
  cosDeg : ℚ → ℚ
  sinDeg : ℚ → ℚ
  atanDeg : ℚ → ℚ → ℚ

/-- The everywhere-zero oracle, used only to instantiate theorems at
concrete inputs whose outcome does not consult the trig values. -/
def trigZero : TrigOracle :=
  { cosDeg := fun _ => 0, sinDeg := fun _ => 0, atanDeg := fun _ _ => 0 }

/-- The mutating command surface registered with the script dispatcher
(lib.rs lines 601-1205), with each command's typed arguments.  The pure
reads `exists`, `drawers` and `position` touch no state and are omitted. -/
inductive Cmd where
  | new (id : String)
  | remove (id : String)
  | rotate (id : String) (degrees : ℚ)
  | setAngle (id : String) (degrees : ℚ)
  | center (id : String)
  | color (id : String) (r g b a : ℚ)
  | forward (id : String) (amount : ℚ)
  | enable (id : String)
  | disable (id : String)
  | wipe
  | rectangle (id : String) (desiredX desiredY : ℚ)
  | pointTo (id : String) (x y : ℚ)
  | fill (id : String)
  | print (msg : String)
  | notification (kind : Nat) (text : String)
deriving DecidableEq

/-- The step the `Record` branch of each command pushes, `none` when the
command logs nothing (`notification`).  Note `pointTo`'s branch pushes a
`DemoStep.rectangle`, copied faithfully from lib.rs lines 1178-1182. -/
def recordStepOf : Cmd → Option DemoStep
  | Cmd.new id => some (DemoStep.new id)
  | Cmd.remove id => some (DemoStep.remove id)
  | Cmd.rotate id degrees => some (DemoStep.rotate id degrees)
  | Cmd.setAngle id degrees => some (DemoStep.setAngle id degrees)
  | Cmd.center id => some (DemoStep.center id)
  | Cmd.color id r g b a => some (DemoStep.color id r g b a)
  | Cmd.forward id amount => some (DemoStep.forward id amount)
  | Cmd.enable id => some (DemoStep.enable id)
  | Cmd.disable id => some (DemoStep.disable id)
  | Cmd.wipe => some DemoStep.wipe
  | Cmd.rectangle id dx dy => some (DemoStep.rectangle id dx dy)
  | Cmd.pointTo id x y => some (DemoStep.rectangle id x y)
  | Cmd.fill id => some (DemoStep.fill id)
  | Cmd.print msg => some (DemoStep.print msg)
  | Cmd.notification _ _ => Option.none

/-- Append one logged step to the demo buffer. -/
def logStep (st : LuaState) (s : DemoStep) : LuaState :=
  { st with demoSteps := st.demoSteps ++ [s] }

/-- The `wipe` body for one drawer (lib.rs lines 886-894): fresh default
drawings plus one pushed strip holding a single white point at the drawer's
current position. -/
def wipeDrawer (d : Drawer) : Drawer :=
  { d with drawings :=
      { lines := Drawings.default.lines ++
          [LineStrip.mk [(Vec3.mk d.pos.x d.pos.y 0, Color.white)]]
        polygons := Drawings.default.polygons } }

/-- Append a point to the last (active) strip
(`lines.last_mut().unwrap().points.push(..)`); `Option.none` models the
panic on an empty strip list. -/
def pushToLastStrip (lines : List LineStrip) (pt : Vec3 × Color) :
    Option (List LineStrip) :=
  match lines.getLast? with
  | Option.none => Option.none
  | some strip => some (lines.dropLast ++ [LineStrip.mk (strip.points ++ [pt])])

/-- One command invocation (the command closures of `init_lua_functions`,
lib.rs lines 601-1205), clause for clause.  `state` is the demo buffer
state the closure reads through `get_state_if_eq(Record)`. -/
def execCommand (tr : TrigOracle) (state : DemoBufferState) (st : LuaState) :
    Cmd → Except Err LuaState
  | Cmd.new id =>
      if containsDrawer st.drawers id then
        Except.error (Err.drawerAlreadyExists id)
      else
        let st1 := if state = DemoBufferState.record then logStep st (DemoStep.new id) else st
        Except.ok { st1 with drawers := st1.drawers ++ [(id, Drawer.default)] }
  | Cmd.remove id =>
      if containsDrawer st.drawers id then
        let st1 := { st with drawers := removeDrawer st.drawers id }
        if state = DemoBufferState.record then
          Except.ok (logStep st1 (DemoStep.remove id))
        else Except.ok st1
      else Except.error (Err.drawerNotFound id)
  | Cmd.rotate id degrees =>
      match lookupDrawer st.drawers id with
      | Option.none => Except.error (Err.drawerNotFound id)
      | some drawer =>
          if state = DemoBufferState.record then
            Except.ok (logStep st (DemoStep.rotate id degrees))
          else
            let d1 := { drawer with ang := rotateAng drawer.ang degrees }
            Except.ok { st with drawers := setDrawer st.drawers id d1 }
  | Cmd.setAngle id degrees =>
      match lookupDrawer st.drawers id with
      | Option.none => Except.error (Err.drawerNotFound id)
      | some drawer =>
          if state = DemoBufferState.record then
            Except.ok (logStep st (DemoStep.setAngle id degrees))
          else
            let d1 := { drawer with ang := degrees }
            Except.ok { st with drawers := setDrawer st.drawers id d1 }
  | Cmd.center id =>
      match lookupDrawer st.drawers id with
      | Option.none => Except.error (Err.drawerNotFound id)
      | some drawer =>
          if state = DemoBufferState.record then
            Except.ok (logStep st (DemoStep.center id))
          else
            let newLines := drawer.drawings.lines ++
              [LineStrip.mk [(Vec3.mk 0 0 0, drawer.color)]]
            let d1 := { drawer with
              pos := Vec2.mk 0 0
              drawings := { drawer.drawings with lines := newLines }
              ang := (90 : ℚ) }
            Except.ok { st with drawers := setDrawer st.drawers id d1 }
  | Cmd.color id r g b a =>
      match lookupDrawer st.drawers id with
      | Option.none => Except.error (Err.drawerNotFound id)
      | some drawer =>
          if state = DemoBufferState.record then
            Except.ok (logStep st (DemoStep.color id r g b a))
          else
            let d1 := { drawer with color := Color.linearRgba r g b a }
            Except.ok { st with drawers := setDrawer st.drawers id d1 }
  | Cmd.forward id amount =>
      match lookupDrawer st.drawers id with
      | Option.none => Except.error (Err.drawerNotFound id)
      | some drawer =>
          if state = DemoBufferState.record then
            Except.ok (logStep st (DemoStep.forward id amount))
          else
            let x := drawer.pos.x + forwardDelta amount (tr.cosDeg drawer.ang)
            let y := drawer.pos.y + forwardDelta amount (tr.sinDeg drawer.ang)
            if drawer.enabled then
              match pushToLastStrip drawer.drawings.lines (Vec3.mk x y 0, drawer.color) with
              | Option.none => Except.error Err.panicEmptyLines
              | some newLines =>
                  let d1 := { drawer with
                    drawings := { drawer.drawings with lines := newLines }
                    pos := Vec2.mk x y }
                  Except.ok { st with drawers := setDrawer st.drawers id d1 }
            else
              let d1 := { drawer with pos := Vec2.mk x y }
              Except.ok { st with drawers := setDrawer st.drawers id d1 }
  | Cmd.enable id =>
      match lookupDrawer st.drawers id with
      | Option.none => Except.error (Err.drawerNotFound id)
      | some drawer =>
          if state = DemoBufferState.record then
            Except.ok (logStep st (DemoStep.enable id))
          else
            let newLines := drawer.drawings.lines ++
              [LineStrip.mk [(Vec3.mk drawer.pos.x drawer.pos.y 0, drawer.color)]]
            let d1 := { drawer with
              enabled := true
              drawings := { drawer.drawings with lines := newLines } }
            Except.ok { st with drawers := setDrawer st.drawers id d1 }
  | Cmd.disable id =>
      match lookupDrawer st.drawers id with
      | Option.none => Except.error (Err.drawerNotFound id)
      | some drawer =>
          if state = DemoBufferState.record then
            Except.ok (logStep st (DemoStep.disable id))
          else
            let d1 := { drawer with enabled := false }
            Except.ok { st with drawers := setDrawer st.drawers id d1 }
  | Cmd.wipe =>
      if state = DemoBufferState.record then
        Except.ok (logStep st DemoStep.wipe)
      else
        Except.ok { st with drawers := mapDrawers wipeDrawer st.drawers }
  | Cmd.rectangle id desiredX desiredY =>
      match lookupDrawer st.drawers id with
      | Option.none => Except.error (Err.drawerNotFound id)
      | some drawer =>
          if state = DemoBufferState.record then
            Except.ok (logStep st (DemoStep.rectangle id desiredX desiredY))
          else
            let rect := FilledPolygonPoints.mk
              [Vec3.mk drawer.pos.x drawer.pos.y 0,
               Vec3.mk (drawer.pos.x + desiredX) drawer.pos.y 0,
               Vec3.mk (drawer.pos.x + desiredX) (drawer.pos.y + desiredY) 0,
               Vec3.mk drawer.pos.x (drawer.pos.y + desiredY) 0]
              drawer.color
            let d1 := { drawer with
              drawings := { drawer.drawings with polygons :=
                drawer.drawings.polygons ++ [rect] } }
            Except.ok { st with drawers := setDrawer st.drawers id d1 }
  | Cmd.pointTo id x y =>
      match lookupDrawer st.drawers id with
      | Option.none => Except.error (Err.drawerNotFound id)
      | some drawer =>
          if state = DemoBufferState.record then
            Except.ok (logStep st (DemoStep.rectangle id x y))
          else
            let d1 := { drawer with
              ang := tr.atanDeg (drawer.pos.y - y) (drawer.pos.x - x) - 90 }
            Except.ok { st with drawers := setDrawer st.drawers id d1 }
  | Cmd.fill id =>
      match lookupDrawer st.drawers id with
      | Option.none => Except.error (Err.drawerNotFound id)
      | some drawer =>
          if state = DemoBufferState.record then
            Except.ok (logStep st (DemoStep.fill id))
          else
            let reqs := fillRequests (Coord.mk drawer.pos.x drawer.pos.y)
              (flattenPoints st.drawers)
            let newSent := st.sentRequests ++ reqs.map (fun poly =>
              FillReq.mk (poly.map (fun c => Vec3.mk c.x c.y 0)) drawer.color id)
            Except.ok { st with sentRequests := newSent }
  | Cmd.print msg =>
      if state = DemoBufferState.record then
        Except.ok (logStep st (DemoStep.print msg))
      else
        Except.ok { st with output := st.output ++ [msg] }
  | Cmd.notification _ _ =>
      if state = DemoBufferState.record then Except.ok st
      else Except.ok st

/-- Sequential execution of a script's command calls; an error aborts the
remaining statements (standard script-runtime short-circuit). -/
def execSeq (tr : TrigOracle) (state : DemoBufferState) (st : LuaState) :
    List Cmd → Except Err LuaState
  | [] => Except.ok st
  | c :: cs =>
      match execCommand tr state st c with
      | Except.error e => Except.error e
      | Except.ok st1 => execSeq tr state st1 cs

/-- Sequential execution keeping the partial state at the point of failure
(the Rust runtime leaves all side effects of the already-executed prefix in
place). -/
def execSeqPartial (tr : TrigOracle) (state : DemoBufferState) (st : LuaState) :
    List Cmd → LuaState × Option Err
  | [] => (st, Option.none)
  | c :: cs =>
      match execCommand tr state st c with
      | Except.error e => (st, some e)
      | Except.ok st1 => execSeqPartial tr state st1 cs

/-- Model of `DemoInstance` (lib.rs lines 104-113), minus the `created_at`
wall-clock timestamp, which comes from an external clock collaborator. -/
structure DemoInstance where
  name : String
  demo_steps : List DemoStep

/-- The application state the `Create Demo` button handler touches: the
script-visible state, the demo buffer's state flag and the stored demo
list. -/
structure AppState where
  lua : LuaState
  demoState : DemoBufferState
  demos : List DemoInstance

/-- Model of the `Create Demo` click handler (ui.rs lines 682-751): snapshot
and clear the registry, enter `Record`, run the script once, on success
drain the whole step buffer into a new `DemoInstance` and push it, on error
only toast (the buffer is left as the failure left it), then leave `Record`,
clear the registry and restore the snapshot.  The script is the list of
command calls it makes. -/
def createDemo (tr : TrigOracle) (scriptName : String) (script : List Cmd)
    (app : AppState) : AppState :=
  let currentDrawerCanvas := app.lua.drawers
  let lua0 := { app.lua with drawers := [] }
  let run := execSeqPartial tr DemoBufferState.record lua0 script
  let lua1 := run.1
  match run.2 with
  | Option.none =>
      let demoInstance := DemoInstance.mk scriptName lua1.demoSteps
      { lua := { lua1 with demoSteps := [], drawers := currentDrawerCanvas }
        demoState := DemoBufferState.none
        demos := app.demos ++ [demoInstance] }
  | some _ =>
      { lua := { lua1 with drawers := currentDrawerCanvas }
        demoState := DemoBufferState.none
        demos := app.demos }

/-- The commands whose effect is suppressed and replaced by exactly one
logged step while Recording: every mutating command except `new` (which
still inserts), `remove` (which still deletes) and `notification` (which
logs nothing).  The pure reads are not in `Cmd` at all. -/
def suppressedLogged : Cmd → Bool
  | Cmd.rotate _ _ => true
  | Cmd.setAngle _ _ => true
  | Cmd.center _ => true
  | Cmd.color _ _ _ _ _ => true
  | Cmd.forward _ _ => true
  | Cmd.enable _ => true
  | Cmd.disable _ => true
  | Cmd.wipe => true
  | Cmd.rectangle _ _ _ => true
  | Cmd.pointTo _ _ _ => true
  | Cmd.fill _ => true
  | Cmd.print _ => true
  | _ => false

/-- The spec's Drawer invariant: every drawer in the registry has at least
one `LineStrip`. -/
def linesNonEmptyInv (reg : Registry) : Prop :=
  ∀ p ∈ reg, p.2.drawings.lines ≠ []

/-- A script state with the given registry and everything else empty. -/
def mkLua (reg : Registry) : LuaState :=
  { drawers := reg, demoSteps := [], output := [], sentRequests := [] }

/-- Concrete drawer id used by the concrete-input theorems. -/
def idA : String := "a"

/-- Second concrete drawer id. -/
def idB : String := "b"

/-- Third concrete drawer id (pre-existing canvas content in the C5 input). -/
def idZ : String := "z"

/-- Concrete state holding exactly the drawer `idA`. -/
def oneDrawerSt : LuaState := mkLua [(idA, Drawer.default)]

/-- Concrete drawer away from the origin (position (5, 0)), used by the
wipe counterexample. -/
def drawerAt5 : Drawer := { Drawer.default with pos := Vec2.mk 5 0 }

/-- Concrete state for the wipe counterexample. -/
def wipeSt : LuaState := mkLua [(idA, drawerAt5)]

/-- The geometry the claim says `wipe` leaves for `drawerAt5`: one single
point at the drawer's current position, colored white. -/
def claimedSinglePoint : Drawings :=
  { lines := [LineStrip.mk [(Vec3.mk 5 0 0, Color.white)]], polygons := [] }

/-- Flattened point sequence of the fill counterexample: a 2x2 square drawn
from the origin and closed, then one further stroke.  Scanning it finds a
closed loop twice (at the closing segment and again at the following
segment), both of whose hulls contain the probe. -/
def c4Points : List Vec3 :=
  [Vec3.mk 0 0 0, Vec3.mk 2 0 0, Vec3.mk 2 2 0,
   Vec3.mk 0 2 0, Vec3.mk 0 0 0, Vec3.mk 3 (-1) 0]

/-- The drawer requesting the fill in the counterexample: it sits at
(1/2, 1), inside the square, and its single strip holds `c4Points`. -/
def c4Drawer : Drawer :=
  { Drawer.default with
      pos := Vec2.mk (1/2) 1
      drawings := { lines := [LineStrip.mk (c4Points.map (fun p => (p, Color.white)))]
                    polygons := [] } }

/-- Concrete state for the fill counterexample. -/
def c4St : LuaState := mkLua [(idA, c4Drawer)]

/-- Concrete application state for the failed-recording theorem: one drawer
`idZ` on the canvas, empty demo buffer, no stored demos. -/
def c5App : AppState :=
  { lua := mkLua [(idZ, Drawer.default)]
    demoState := DemoBufferState.none
    demos := [] }

/-- The failing script of the C5 input: `new("a")` succeeds and logs one
step, then `rotate("b", 10)` fails because drawer `b` does not exist on the
cleared recording canvas. -/
def c5Script : List Cmd := [Cmd.new idA, Cmd.rotate idB 10]

/-- Name given to the would-be demo in the C5 input. -/
def c5Name : String := "s"

/-- Lookup under the updated key after `setDrawer` sees the new value. -/
theorem lookupDrawer_setDrawer (reg : Registry) (id : String) (v : Drawer) :
    lookupDrawer (setDrawer reg id v) id = (lookupDrawer reg id).map (fun _ => v) := by
  induction reg with
  | nil => simp [lookupDrawer, setDrawer]
  | cons p rest ih =>
      by_cases h : p.1 = id
      · simp [lookupDrawer, setDrawer, h]
      · simp [lookupDrawer, setDrawer, h, ih]

/-- Lookup after a registry-wide map applies the function to the found
drawer. -/
theorem lookupDrawer_mapDrawers (f : Drawer → Drawer) (reg : Registry) (id : String) :
    lookupDrawer (mapDrawers f reg) id = (lookupDrawer reg id).map f := by
  induction reg with
  | nil => simp [lookupDrawer, mapDrawers]
  | cons p rest ih =>
      by_cases h : p.1 = id
      · simp [lookupDrawer, mapDrawers, h]
      · simp [lookupDrawer, mapDrawers, h] at ih ⊢
        exact ih

/-- C8: with drawer `id` already present — in any demo-buffer state — `new(id)`
returns the `DrawerAlreadyExists` error and the whole script state, registry
included, is exactly what it was before the call. -/
theorem c8_new_rejected_when_present (tr : TrigOracle) (state : DemoBufferState)
    (st : LuaState) (id : String) (h : containsDrawer st.drawers id = true) :
    execSeqPartial tr state st [Cmd.new id] = (st, some (Err.drawerAlreadyExists id)) := by
  simp [execSeqPartial, execCommand, h]

/-- Witness for C8 at a concrete input: the registry already holding `"a"`. -/
theorem c8_new_rejected_witness :
    execSeqPartial trigZero DemoBufferState.none oneDrawerSt [Cmd.new idA] =
      (oneDrawerSt, some (Err.drawerAlreadyExists idA)) :=
  c8_new_rejected_when_present trigZero DemoBufferState.none oneDrawerSt idA (by decide)

/-- C9 counterexample: from the default heading 90, `rotate(id, 1e8)` then
`rotate(id, -1e8)` ends at heading 88, not 90: the `f32` sum 90 + 1e8 rounds
to the nearest representable 100000088 (the spacing there is 8), and
100000088 - 1e8 = 88 exactly.  The difference -2 is no multiple of 360. -/
theorem c9_f32_roundtrip_counterexample :
    (∃ st', execSeq trigZero DemoBufferState.none oneDrawerSt
        [Cmd.rotate idA 100000000, Cmd.rotate idA (-100000000)] = Except.ok st' ∧
      lookupDrawer st'.drawers idA = some { Drawer.default with ang := 88 }) ∧
    Drawer.default.ang = 90 ∧
    ∀ k : ℤ, (88 : ℚ) - 90 ≠ 360 * k := by
  refine ⟨⟨_, rfl, by decide⟩, rfl, ?_⟩
  intro k hk
  norm_num at hk
  have h2 : (360 : ℤ) * k = -2 := by exact_mod_cast hk.symm
  omega

/-- C9 amended: outside Recording, `rotate(id, θ)` then `rotate(id, -θ)`
restores the original heading modulo 360 degrees whenever the heading is a
rounding fixed point and the degree sum `heading + θ` incurs no `f32`
rounding; with rounding the roundtrip can land elsewhere (90 with θ = 1e8
ends at 88). -/
theorem c9_rotate_roundtrip_exact_add (tr : TrigOracle) (state : DemoBufferState)
    (hs : state ≠ DemoBufferState.record) (st : LuaState) (id : String) (θ : ℚ)
    (d : Drawer) (h : lookupDrawer st.drawers id = some d)
    (hrep : roundF32 d.ang = d.ang)
    (hexact : roundF32 (d.ang + θ) = d.ang + θ) :
    ∃ st', execSeq tr state st [Cmd.rotate id θ, Cmd.rotate id (-θ)] = Except.ok st' ∧
      ∃ d', lookupDrawer st'.drawers id = some d' ∧ ∃ k : ℤ, d'.ang - d.ang = 360 * k := by
  have hl1 : lookupDrawer (setDrawer st.drawers id { d with ang := rotateAng d.ang θ }) id =
      some { d with ang := rotateAng d.ang θ } := by
    rw [lookupDrawer_setDrawer, h]
    rfl
  refine ⟨{ st with drawers := setDrawer (setDrawer st.drawers id { d with ang := rotateAng d.ang θ }) id { d with ang := rotateAng (rotateAng d.ang θ) (-θ) } }, ?_, { d with ang := rotateAng (rotateAng d.ang θ) (-θ) }, ?_, 0, ?_⟩
  · simp [execSeq, execCommand, h, hs, hl1]
  · rw [lookupDrawer_setDrawer, hl1]
    rfl
  · show rotateAng (rotateAng d.ang θ) (-θ) - d.ang = 360 * 0
    simp only [rotateAng, hexact]
    have hcancel : d.ang + θ + -θ = d.ang := by ring
    rw [hcancel, hrep]
    ring

/-- Witness for the amended C9 at a concrete input: heading 90 rotated by 30
and then by -30; both 90 and 120 are exactly representable, so the two
rounding hypotheses hold by evaluation. -/
theorem c9_rotate_roundtrip_exact_add_witness :
    ∃ st', execSeq trigZero DemoBufferState.none oneDrawerSt
        [Cmd.rotate idA 30, Cmd.rotate idA (-30)] = Except.ok st' ∧
      ∃ d', lookupDrawer st'.drawers idA = some d' ∧
        ∃ k : ℤ, d'.ang - Drawer.default.ang = 360 * k :=
  c9_rotate_roundtrip_exact_add trigZero DemoBufferState.none (by decide) oneDrawerSt idA 30
    Drawer.default (by rfl) (by decide) (by decide)

/-- C7 counterexample: a delta of magnitude 2 ^ (-23), below 1e-6, that is
not snapped to 0, because the snap is applied to the trig component (here
cos 0 = 1, an exact float value reachable via `set_drawer_angle(id, 0)`)
rather than to the product. -/
theorem c7_small_delta_not_snapped :
    forwardDelta (1/8388608) 1 = 1/8388608 ∧
    (1 : ℚ)/8388608 < 1/1000000 ∧
    (1 : ℚ)/8388608 ≠ 0 := by
  refine ⟨?_, by norm_num, by norm_num⟩
  simp [forwardDelta, floating_point_calculation_error, fabs, snapThreshold]
  norm_num

/-- C7 amended: the snap applies to the trig component before the
multiplication, so whenever the float cosine (or sine) of the heading has
magnitude below the `0.000001` literal — as at heading 90 degrees, where the
float cosine is about -4.4e-8 — the corresponding delta is exactly 0 for
every amount. -/
theorem c7_trig_component_snapped (amount c : ℚ) (h : fabs c < snapThreshold) :
    forwardDelta amount c = 0 := by
  simp [forwardDelta, floating_point_calculation_error, h]

/-- Witness for the amended C7 at a concrete input: a trig component of
1e-8. -/
theorem c7_trig_component_snapped_witness : forwardDelta 5 (1/100000000) = 0 :=
  c7_trig_component_snapped 5 (1/100000000) (by norm_num [fabs, snapThreshold])

/-- C6 counterexample: `wipe` applied to a drawer at position (5, 0) leaves
two strips — the default one at the origin plus one at the current
position — not a single point at the current position. -/
theorem c6_wipe_not_single_point :
    execCommand trigZero DemoBufferState.none wipeSt Cmd.wipe =
      Except.ok { wipeSt with drawers := [(idA, wipeDrawer drawerAt5)] } ∧
    (wipeDrawer drawerAt5).drawings ≠ claimedSinglePoint := by
  exact ⟨rfl, by decide⟩

/-- C6 amended: outside Recording, `wipe` resets every drawer's geometry to
the default drawings (single white point at the origin) plus one pushed
strip holding a single white point at the drawer's current position, with
the polygons cleared. -/
theorem c6_wipe_default_plus_position (tr : TrigOracle) (state : DemoBufferState)
    (hs : state ≠ DemoBufferState.record) (st : LuaState) (id : String) (d : Drawer)
    (h : lookupDrawer st.drawers id = some d) :
    ∃ st', execCommand tr state st Cmd.wipe = Except.ok st' ∧
      lookupDrawer st'.drawers id = some { d with drawings := Drawings.mk [LineStrip.mk [(Vec3.mk 0 0 0, Color.white)], LineStrip.mk [(Vec3.mk d.pos.x d.pos.y 0, Color.white)]] [] } := by
  refine ⟨{ st with drawers := mapDrawers wipeDrawer st.drawers }, by simp [execCommand, hs], ?_⟩
  rw [lookupDrawer_mapDrawers, h]
  rfl

/-- Witness for the amended C6 at a concrete input: the drawer at (5, 0). -/
theorem c6_wipe_default_plus_position_witness :
    ∃ st', execCommand trigZero DemoBufferState.none wipeSt Cmd.wipe = Except.ok st' ∧
      lookupDrawer st'.drawers idA = some { drawerAt5 with drawings := Drawings.mk [LineStrip.mk [(Vec3.mk 0 0 0, Color.white)], LineStrip.mk [(Vec3.mk 5 0 0, Color.white)]] [] } :=
  c6_wipe_default_plus_position trigZero DemoBufferState.none (by decide) wipeSt idA
    drawerAt5 (by rfl)

/-- C3: while Recording, `point_to("a", 1, 2)` on the existing drawer logs a
`Rectangle` step — not a `PointTo` step — and changes nothing but the step
buffer (lib.rs lines 1178-1182 push `DemoStep::Rectangle`). -/
theorem c3_point_to_records_rectangle_step :
    execCommand trigZero DemoBufferState.record oneDrawerSt (Cmd.pointTo idA 1 2) =
      Except.ok { oneDrawerSt with demoSteps := [DemoStep.rectangle idA 1 2] } ∧
    DemoStep.rectangle idA 1 2 ≠ DemoStep.pointTo idA 1 2 := by
  exact ⟨rfl, by simp⟩

/-- C2: the `Display` rendering of the `Enable` variant is the same text as
the `Disable` variant's — the `disable(..)` call — and the `SetAngle`
variant renders under the name `set_angle`, which the dispatcher does not
register (it registers `set_drawer_angle`).  `num` is the float formatter
for numeric arguments. -/
theorem c2_render_name_divergence (num : ℚ → String) :
    DemoStep.render num (DemoStep.enable idA) = DemoStep.render num (DemoStep.disable idA) ∧
    DemoStep.render num (DemoStep.enable idA) = "disable(\"a\")" ∧
    "enable" ∈ registeredCommandNames ∧
    DemoStep.render num (DemoStep.setAngle idA 5) = "set_angle(\"a\", " ++ num 5 ++ ")" ∧
    "set_angle" ∉ registeredCommandNames ∧
    "set_drawer_angle" ∈ registeredCommandNames := by
  exact ⟨rfl, rfl, by decide, rfl, by decide, by decide⟩

/-- C5: the failed recording session over `new("a"); rotate("b", 10)` adds no
`DemoInstance` and restores the pre-recording registry, but leaves the
partially captured step `New("a")` sitting in the demo buffer instead of
discarding it. -/
theorem c5_failed_recording_keeps_buffer :
    (createDemo trigZero c5Name c5Script c5App).demos = [] ∧
    (createDemo trigZero c5Name c5Script c5App).lua.drawers = c5App.lua.drawers ∧
    (createDemo trigZero c5Name c5Script c5App).lua.demoSteps = [DemoStep.new idA] ∧
    [DemoStep.new idA] ≠ ([] : List DemoStep) := by
  exact ⟨rfl, rfl, rfl, by simp⟩

/-- C4 counterexample: one `fill` call over the closed 2x2 square plus one
further stroke sends two requests down the render channel — after the first
contained intersection is emitted, the `break` only leaves the inner loop,
and the next segment produces a second emission. -/
theorem c4_fill_emits_two_requests :
    ∃ st', execCommand trigZero DemoBufferState.none c4St (Cmd.fill idA) = Except.ok st' ∧
      st'.sentRequests.length = 2 ∧ 2 ≠ 1 := by
  refine ⟨_, rfl, ?_, by simp⟩
  decide

/-- One outer iteration of the fill scan emits at most one request (the
`break` after the first accepted intersection). -/
theorem processLine_length_le_one (probe : Coord) (line : Line) (idx : Nat)
    (checked : List Line) : (processLine probe line idx checked).length ≤ 1 := by
  unfold processLine
  cases firstHit line idx checked.length 0 checked with
  | none => simp
  | some pr =>
      cases pr with
      | mk c p =>
          simp only []
          split <;> simp

/-- The fill scan emits at most one request per remaining segment. -/
theorem fillScanAux_length_le (probe : Coord) (ls : List Line) :
    ∀ idx checked, (fillScanAux probe idx checked ls).length ≤ ls.length := by
  induction ls with
  | nil => intro idx checked; simp [fillScanAux]
  | cons l rest ih =>
      intro idx checked
      have h1 := processLine_length_le_one probe l idx checked
      have h2 := ih (idx + 1) (checked ++ [l])
      simp only [fillScanAux, List.length_append, List.length_cons]
      omega

/-- C4 amended: a single `fill` call can emit several requests (one per raw
segment whose first accepted intersection yields a containing hull); the
`break` only bounds the emissions by one per scanned segment, so the number
of requests is at most the number of segments. -/
theorem c4_at_most_one_request_per_segment (probe : Coord) (pts : List Vec3) :
    (fillRequests probe pts).length ≤ (linesOfPoints pts).length :=
  fillScanAux_length_le probe (linesOfPoints pts) 0 []

/-- C1 counterexample: while Recording, `remove("a")` on the existing drawer
`"a"` deletes it from the registry (and then logs the step), so the registry
is not left unchanged. -/
theorem c1_remove_mutates_while_recording :
    execCommand trigZero DemoBufferState.record oneDrawerSt (Cmd.remove idA) =
      Except.ok { oneDrawerSt with drawers := [], demoSteps := [DemoStep.remove idA] } ∧
    ([] : Registry) ≠ oneDrawerSt.drawers := by
  exact ⟨rfl, by decide⟩

/-- While Recording, every suppressed-and-logged command either fails its
id lookup or returns with the demo buffer extended by exactly its logged
step and everything else untouched. -/
theorem execCommand_record_shape (tr : TrigOracle) (st : LuaState) (c : Cmd)
    (hc : suppressedLogged c = true) :
    (∃ e, execCommand tr DemoBufferState.record st c = Except.error e) ∨
    (∃ s, recordStepOf c = some s ∧
      execCommand tr DemoBufferState.record st c = Except.ok (logStep st s)) := by
  cases c with
  | new id => simp [suppressedLogged] at hc
  | remove id => simp [suppressedLogged] at hc
  | notification kind text => simp [suppressedLogged] at hc
  | wipe => exact Or.inr ⟨_, rfl, by simp [execCommand]⟩
  | print msg => exact Or.inr ⟨_, rfl, by simp [execCommand]⟩
  | rotate id degrees =>
      cases h : lookupDrawer st.drawers id with
      | none => exact Or.inl ⟨Err.drawerNotFound id, by simp [execCommand, h]⟩
      | some d => exact Or.inr ⟨_, rfl, by simp [execCommand, h]⟩
  | setAngle id degrees =>
      cases h : lookupDrawer st.drawers id with
      | none => exact Or.inl ⟨Err.drawerNotFound id, by simp [execCommand, h]⟩
      | some d => exact Or.inr ⟨_, rfl, by simp [execCommand, h]⟩
  | center id =>
      cases h : lookupDrawer st.drawers id with
      | none => exact Or.inl ⟨Err.drawerNotFound id, by simp [execCommand, h]⟩
      | some d => exact Or.inr ⟨_, rfl, by simp [execCommand, h]⟩
  | color id r g b a =>
      cases h : lookupDrawer st.drawers id with
      | none => exact Or.inl ⟨Err.drawerNotFound id, by simp [execCommand, h]⟩
      | some d => exact Or.inr ⟨_, rfl, by simp [execCommand, h]⟩
  | forward id amount =>
      cases h : lookupDrawer st.drawers id with
      | none => exact Or.inl ⟨Err.drawerNotFound id, by simp [execCommand, h]⟩
      | some d => exact Or.inr ⟨_, rfl, by simp [execCommand, h]⟩
  | enable id =>
      cases h : lookupDrawer st.drawers id with
      | none => exact Or.inl ⟨Err.drawerNotFound id, by simp [execCommand, h]⟩
      | some d => exact Or.inr ⟨_, rfl, by simp [execCommand, h]⟩
  | disable id =>
      cases h : lookupDrawer st.drawers id with
      | none => exact Or.inl ⟨Err.drawerNotFound id, by simp [execCommand, h]⟩
      | some d => exact Or.inr ⟨_, rfl, by simp [execCommand, h]⟩
  | rectangle id dx dy =>
      cases h : lookupDrawer st.drawers id with
      | none => exact Or.inl ⟨Err.drawerNotFound id, by simp [execCommand, h]⟩
      | some d => exact Or.inr ⟨_, rfl, by simp [execCommand, h]⟩
  | pointTo id x y =>
      cases h : lookupDrawer st.drawers id with
      | none => exact Or.inl ⟨Err.drawerNotFound id, by simp [execCommand, h]⟩
      | some d => exact Or.inr ⟨_, rfl, by simp [execCommand, h]⟩
  | fill id =>
      cases h : lookupDrawer st.drawers id with
      | none => exact Or.inl ⟨Err.drawerNotFound id, by simp [execCommand, h]⟩
      | some d => exact Or.inr ⟨_, rfl, by simp [execCommand, h]⟩

/-- C1 amended: while Recording, a successfully executed sequence of
suppressed-and-logged commands — every mutating command except `new`,
`remove` and `notification` — leaves the registry (and the whole canvas
side) unchanged and appends exactly one step per call to the demo buffer,
in call order. -/
theorem c1_record_suppressed_and_logged (tr : TrigOracle) (cmds : List Cmd) :
    ∀ st st', (∀ c ∈ cmds, suppressedLogged c = true) →
      execSeq tr DemoBufferState.record st cmds = Except.ok st' →
      st'.drawers = st.drawers ∧
      st'.demoSteps = st.demoSteps ++ cmds.filterMap recordStepOf ∧
      (cmds.filterMap recordStepOf).length = cmds.length := by
  induction cmds with
  | nil =>
      intro st st' _ h2
      simp only [execSeq] at h2
      cases h2
      simp
  | cons c rest ih =>
      intro st st' h1 h2
      have hc : suppressedLogged c = true := h1 c (List.mem_cons_self c rest)
      rcases execCommand_record_shape tr st c hc with ⟨e, he⟩ | ⟨s, hstep, hok⟩
      · rw [execSeq, he] at h2
        cases h2
      · rw [execSeq, hok] at h2
        obtain ⟨hd, hsteps, hlen⟩ :=
          ih (logStep st s) st' (fun x hx => h1 x (List.mem_cons_of_mem c hx)) h2
        refine ⟨hd, ?_, ?_⟩
        · rw [hsteps, List.filterMap_cons, hstep]
          simp [logStep]
        · rw [List.filterMap_cons, hstep]
          simp [hlen]

/-- Witness for the amended C1 at a concrete input: recording a `wipe` call
from the one-drawer state logs exactly `Wipe` and changes nothing else. -/
theorem c1_record_suppressed_and_logged_witness :
    (logStep oneDrawerSt DemoStep.wipe).drawers = oneDrawerSt.drawers ∧
    (logStep oneDrawerSt DemoStep.wipe).demoSteps =
      oneDrawerSt.demoSteps ++ List.filterMap recordStepOf [Cmd.wipe] ∧
    (List.filterMap recordStepOf [Cmd.wipe]).length = [Cmd.wipe].length :=
  c1_record_suppressed_and_logged trigZero [Cmd.wipe] oneDrawerSt
    (logStep oneDrawerSt DemoStep.wipe) (by decide) rfl

/-- A successful lookup returns an entry of the registry. -/
theorem lookupDrawer_mem {reg : Registry} {id : String} {d : Drawer}
    (h : lookupDrawer reg id = some d) : (id, d) ∈ reg := by
  induction reg with
  | nil => simp [lookupDrawer] at h
  | cons p rest ih =>
      by_cases hp : p.1 = id
      · simp only [lookupDrawer, hp, if_pos] at h
        injection h with h
        subst hp
        subst h
        exact List.mem_cons_self p rest
      · simp only [lookupDrawer, hp, if_neg, not_false_iff] at h
        exact List.mem_cons_of_mem p (ih h)

/-- Replacing one drawer by a value with nonempty strips keeps the
invariant. -/
theorem linesInv_setDrawer {reg : Registry} (id : String) {v : Drawer}
    (hinv : linesNonEmptyInv reg) (hv : v.drawings.lines ≠ []) :
    linesNonEmptyInv (setDrawer reg id v) := by
  induction reg with
  | nil => intro p hp; simp [setDrawer] at hp
  | cons q rest ih =>
      have hrest : linesNonEmptyInv rest := fun p hp => hinv p (List.mem_cons_of_mem q hp)
      intro p hp
      by_cases hq : q.1 = id
      · simp only [setDrawer, hq, if_pos] at hp
        rcases List.mem_cons.mp hp with h | h
        · subst h; exact hv
        · exact ih hrest p h
      · simp only [setDrawer, hq, if_neg, not_false_iff] at hp
        rcases List.mem_cons.mp hp with h | h
        · subst h; exact hinv p (List.mem_cons_self p rest)
        · exact ih hrest p h

/-- Deleting a drawer keeps the invariant. -/
theorem linesInv_removeDrawer {reg : Registry} (id : String)
    (hinv : linesNonEmptyInv reg) : linesNonEmptyInv (removeDrawer reg id) := by
  induction reg with
  | nil => intro p hp; simp [removeDrawer] at hp
  | cons q rest ih =>
      have hrest : linesNonEmptyInv rest := fun p hp => hinv p (List.mem_cons_of_mem q hp)
      intro p hp
      by_cases hq : q.1 = id
      · simp only [removeDrawer, hq, if_pos] at hp
        exact ih hrest p hp
      · simp only [removeDrawer, hq, if_neg, not_false_iff] at hp
        rcases List.mem_cons.mp hp with h | h
        · subst h; exact hinv p (List.mem_cons_self p rest)
        · exact ih hrest p h

/-- Inserting the default drawer keeps the invariant (the default has one
strip). -/
theorem linesInv_append_default {reg : Registry} (hinv : linesNonEmptyInv reg)
    (id : String) : linesNonEmptyInv (reg ++ [(id, Drawer.default)]) := by
  intro p hp
  rcases List.mem_append.mp hp with h | h
  · exact hinv p h
  · simp only [List.mem_singleton] at h
    subst h
    simp [Drawer.default, Drawings.default]

/-- After `wipe`, every drawer has two strips, so the invariant holds
outright. -/
theorem linesInv_mapDrawers_wipe (reg : Registry) :
    linesNonEmptyInv (mapDrawers wipeDrawer reg) := by
  intro p hp
  simp only [mapDrawers, List.mem_map] at hp
  obtain ⟨q, _, rfl⟩ := hp
  simp [wipeDrawer, Drawings.default]

/-- The strip list produced by `forward`'s push is never empty. -/
theorem pushToLastStrip_ne_nil {lines : List LineStrip} {pt : Vec3 × Color}
    {newLines : List LineStrip} (h : pushToLastStrip lines pt = some newLines) :
    newLines ≠ [] := by
  unfold pushToLastStrip at h
  cases hl : lines.getLast? <;> rw [hl] at h
  · cases h
  · injection h with h
    subst h
    simp

/-- C10: every command execution preserves the invariant that each drawer in
the registry has at least one `LineStrip` — so `forward`'s append to the
last strip always has a strip to append to, and newly constructed drawers
start with one. -/
theorem c10_lines_nonempty_invariant (tr : TrigOracle) (state : DemoBufferState)
    (st : LuaState) (c : Cmd) (st' : LuaState)
    (hinv : linesNonEmptyInv st.drawers)
    (h : execCommand tr state st c = Except.ok st') :
    linesNonEmptyInv st'.drawers := by
  cases c with
  | new id =>
      simp only [execCommand] at h
      split at h
      · cases h
      · split at h
        all_goals
          injection h with h
          subst h
          exact linesInv_append_default hinv id
  | remove id =>
      simp only [execCommand] at h
      split at h
      · split at h
        all_goals
          injection h with h
          subst h
          exact linesInv_removeDrawer id hinv
      · cases h
  | rotate id degrees =>
      simp only [execCommand] at h
      split at h
      · cases h
      · rename_i d hl
        have hd : d.drawings.lines ≠ [] := hinv (id, d) (lookupDrawer_mem hl)
        split at h
        · injection h with h; subst h; exact hinv
        · injection h with h; subst h
          exact linesInv_setDrawer id hinv hd
  | setAngle id degrees =>
      simp only [execCommand] at h
      split at h
      · cases h
      · rename_i d hl
        have hd : d.drawings.lines ≠ [] := hinv (id, d) (lookupDrawer_mem hl)
        split at h
        · injection h with h; subst h; exact hinv
        · injection h with h; subst h
          exact linesInv_setDrawer id hinv hd
  | center id =>
      simp only [execCommand] at h
      split at h
      · cases h
      · rename_i d hl
        split at h
        · injection h with h; subst h; exact hinv
        · injection h with h; subst h
          refine linesInv_setDrawer id hinv ?_
          simp
  | color id r g b a =>
      simp only [execCommand] at h
      split at h
      · cases h
      · rename_i d hl
        have hd : d.drawings.lines ≠ [] := hinv (id, d) (lookupDrawer_mem hl)
        split at h
        · injection h with h; subst h; exact hinv
        · injection h with h; subst h
          exact linesInv_setDrawer id hinv hd
  | forward id amount =>
      simp only [execCommand] at h
      split at h
      · cases h
      · rename_i d hl
        have hd : d.drawings.lines ≠ [] := hinv (id, d) (lookupDrawer_mem hl)
        split at h
        · injection h with h; subst h; exact hinv
        · split at h
          · split at h
            · cases h
            · rename_i newLines hpush
              injection h with h; subst h
              exact linesInv_setDrawer id hinv (pushToLastStrip_ne_nil hpush)
          · injection h with h; subst h
            exact linesInv_setDrawer id hinv hd
  | enable id =>
      simp only [execCommand] at h
      split at h
      · cases h
      · rename_i d hl
        split at h
        · injection h with h; subst h; exact hinv
        · injection h with h; subst h
          refine linesInv_setDrawer id hinv ?_
          simp
  | disable id =>
      simp only [execCommand] at h
      split at h
      · cases h
      · rename_i d hl
        have hd : d.drawings.lines ≠ [] := hinv (id, d) (lookupDrawer_mem hl)
        split at h
        · injection h with h; subst h; exact hinv
        · injection h with h; subst h
          exact linesInv_setDrawer id hinv hd
  | wipe =>
      simp only [execCommand] at h
      split at h
      · injection h with h; subst h; exact hinv
      · injection h with h; subst h
        exact linesInv_mapDrawers_wipe st.drawers
  | rectangle id dx dy =>
      simp only [execCommand] at h
      split at h
      · cases h
      · rename_i d hl
        have hd : d.drawings.lines ≠ [] := hinv (id, d) (lookupDrawer_mem hl)
        split at h
        · injection h with h; subst h; exact hinv
        · injection h with h; subst h
          exact linesInv_setDrawer id hinv hd
  | pointTo id x y =>
      simp only [execCommand] at h
      split at h
      · cases h
      · rename_i d hl
        have hd : d.drawings.lines ≠ [] := hinv (id, d) (lookupDrawer_mem hl)
        split at h
        · injection h with h; subst h; exact hinv
        · injection h with h; subst h
          exact linesInv_setDrawer id hinv hd
  | fill id =>
      simp only [execCommand] at h
      split at h
      · cases h
      · rename_i d hl
        split at h
        · injection h with h; subst h; exact hinv
        · injection h with h; subst h; exact hinv
  | print msg =>
      simp only [execCommand] at h
      split at h
      · injection h with h; subst h; exact hinv
      · injection h with h; subst h; exact hinv
  | notification kind text =>
      simp only [execCommand] at h
      split at h
      · injection h with h; subst h; exact hinv
      · injection h with h; subst h; exact hinv

/-- Witness for C10 at a concrete input: creating drawer `"a"` in the empty
registry yields a registry satisfying the invariant. -/
theorem c10_lines_nonempty_invariant_witness : linesNonEmptyInv oneDrawerSt.drawers :=
  c10_lines_nonempty_invariant trigZero DemoBufferState.none (mkLua []) (Cmd.new idA)
    oneDrawerSt (fun _ hp => nomatch hp) rfl

end FerrisDraw
